import Mathlib

set_option maxRecDepth 2000

deriving instance DecidableEq for Except

/-!
Verification development for the bank-statement transaction analysis engine
(source files bank.py and dashboard_pdf.py).  The engine is shallowly
embedded: a pandas dataframe becomes a list of records, pandas column
operations become per-row functions, amounts are exact rationals, and the
fallible Python paths are embedded in the Except monad.
-/

namespace BankSpec

/-! Character and string utilities shared by the embedding. -/

/-- Boolean test that the second list is a prefix of the first. -/
def startsWithL : List Char → List Char → Bool
  | _, [] => true
  | [], _ :: _ => false
  | c :: cs, d :: ds => c == d && startsWithL cs ds

/-- Boolean substring search of needle inside the second argument,
models the Python expression needle in haystack. -/
def hasSubstrL (needle : List Char) : List Char → Bool
  | [] => startsWithL [] needle
  | c :: cs => startsWithL (c :: cs) needle || hasSubstrL needle cs

/-- String-level substring test: containsSub s pat is true when pat occurs
contiguously in s. -/
def containsSub (s pat : String) : Bool :=
  hasSubstrL pat.data s.data

/-- Models the Python str.upper method (character-wise upper casing),
implemented over the character list so that it evaluates by reduction. -/
def upperStr (s : String) : String :=
  ⟨s.data.map Char.toUpper⟩

/-- Word character in the sense of the regex class backslash-w:
letters, digits and the underscore. -/
def isWordChar (c : Char) : Bool :=
  c.isAlphanum || c == '_'

/-! Python scalar values.  A narration cell can hold a string, the missing
markers None and NaN, or another scalar such as an integer; the engine
passes them to str() before matching, but indexes the original value in
one fallback path, which matters for totality. -/

/-- Scalar value of a Python narration cell. -/
inductive PyVal where
  | str (s : String)
  | pyNone
  | pyNaN
  | intVal (n : ℤ)
deriving DecidableEq

/-- Models the Python str() conversion applied to a narration cell. -/
def pyStr : PyVal → String
  | .str s => s
  | .pyNone => "None"
  | .pyNaN => "nan"
  | .intVal n => toString n

/-! Raw spreadsheet cells and the numeric coercion performed by the
normalizers (bank.py lines 32 to 34 and dashboard_pdf.py lines 50 to 52):
pd.to_numeric with errors equal to coerce, followed by fillna(0). -/

/-- Raw content of an amount cell: an already numeric value, free text,
or a missing value. -/
inductive Cell where
  | num (q : ℚ)
  | str (s : String)
  | null
deriving DecidableEq

/-- Value of a digit list read in base ten. -/
def digitsToNat (ds : List Char) : ℕ :=
  ds.foldl (fun acc c => 10 * acc + (c.toNat - 48)) 0

/-- Drop spaces at both ends of a character list. -/
def trimSpaces (l : List Char) : List Char :=
  ((l.dropWhile (· == ' ')).reverse.dropWhile (· == ' ')).reverse

/-- Split a leading sign character off a trimmed numeric string. -/
def parseSign : List Char → Bool × List Char
  | '-' :: r => (true, r)
  | '+' :: r => (false, r)
  | r => (false, r)

/-- Models the numeric parsing done by pd.to_numeric on a text cell for
plain decimal forms: optional surrounding spaces, optional sign, integer
part, optional fractional part.  Strings outside this shape fail to
parse, which is what matters downstream: failure becomes NaN. -/
def parseDecimalString (s : String) : Option ℚ :=
  let t := trimSpaces s.data
  let signRest := parseSign t
  let rest := signRest.2
  let intPart := rest.takeWhile Char.isDigit
  let rest2 := rest.dropWhile Char.isDigit
  let core : Option ℚ :=
    match rest2 with
    | [] => if intPart.isEmpty then none else some (digitsToNat intPart : ℚ)
    | '.' :: frac =>
      if frac.all Char.isDigit && !(intPart.isEmpty && frac.isEmpty) then
        some ((digitsToNat intPart : ℚ) + mkRat (digitsToNat frac) (10 ^ frac.length))
      else none
    | _ => none
  match core with
  | none => none
  | some q => some (if signRest.1 then -q else q)

/-- Models pd.to_numeric with errors equal to coerce on one cell: numeric
cells pass through, text cells are parsed, anything unparseable (and any
missing cell) becomes NaN, represented here by none. -/
def to_numeric_coerce : Cell → Option ℚ
  | .num q => some q
  | .null => none
  | .str s => parseDecimalString s

/-- Models Series.fillna(0) on one cell of the coerced column. -/
def fillna0 (v : Option ℚ) : ℚ :=
  v.getD 0

/-- Full numeric coercion of one amount cell, as performed on the Debit
Amount, Credit Amount and Line Balance columns by both normalizers. -/
def coerceCell (c : Cell) : ℚ :=
  fillna0 (to_numeric_coerce c)

/-! Dates.  The engine receives the Transaction Date column already
parsed to datetimes (the source's fast path when the column is already a
datetime dtype; the mixed-format string-parsing branch is input plumbing
outside the analyzed behavior).  A datetime is modelled by its calendar
fields, ordered lexicographically, which agrees with chronological order
on valid dates. -/

/-- Calendar date of a transaction. -/
structure Date where
  year : ℤ
  month : ℤ
  day : ℤ
deriving DecidableEq

/-- Chronological order on dates (lexicographic on year, month, day). -/
def Date.leB (a b : Date) : Bool :=
  decide (a.year < b.year) ||
    (decide (a.year = b.year) &&
      (decide (a.month < b.month) ||
        (decide (a.month = b.month) && decide (a.day ≤ b.day))))

/-- Earlier of two dates. -/
def Date.minD (a b : Date) : Date :=
  if Date.leB a b then a else b

/-- Later of two dates. -/
def Date.maxD (a b : Date) : Date :=
  if Date.leB a b then b else a

/-- Minimum of a date column, models Series.min on the Transaction Date
column of a nonempty selection (the default is never reached there). -/
def colMinDate : List Date → Date
  | [] => ⟨1970, 1, 1⟩
  | d :: ds => ds.foldl Date.minD d

/-- Maximum of a date column, models Series.max as above. -/
def colMaxDate : List Date → Date
  | [] => ⟨1970, 1, 1⟩
  | d :: ds => ds.foldl Date.maxD d

/-! Stable sorting, used to model the sorted views the dashboard builds. -/

/-- Insert an element into a sorted list, keeping it before later equal
elements. -/
def insertSorted {α : Type} (le : α → α → Bool) (a : α) : List α → List α
  | [] => [a]
  | b :: bs => if le a b then a :: b :: bs else b :: insertSorted le a bs

/-- Stable insertion sort by a boolean comparison. -/
def sortByB {α : Type} (le : α → α → Bool) (l : List α) : List α :=
  l.foldr (insertSorted le) []

/-! bank.py: the TransactionAnalyzer engine. -/

/-- Models TransactionAnalyzer.extract_transaction_type (bank.py lines 45
to 59): upper-case the str() form of the narration, then test the five
keywords as substrings in source order, first hit winning. -/
def extract_transaction_type (narration : PyVal) : String :=
  let n := upperStr (pyStr narration)
  if containsSub n "NEFT" then "NEFT"
  else if containsSub n "IMPS" then "IMPS"
  else if containsSub n "UPI" then "UPI"
  else if containsSub n "ATM" then "ATM"
  else if containsSub n "TRANSFER" then "TRANSFER"
  else "OTHER"

/-- Raw ledger row as handed to the TransactionAnalyzer: a parsed date
plus the raw narration and amount cells. -/
structure RawRow where
  transactionDate : Date
  narration : PyVal
  debitCell : Cell
  creditCell : Cell
  balanceCell : Cell
deriving DecidableEq

/-- Normalized ledger row after TransactionAnalyzer.prepare_data: coerced
amounts, the derived Transaction Amount, the year-month key (the source
formats it as a YYYY-MM string; the pair of the year and month carries
the same information), and the derived Transaction Type. -/
structure BRow where
  transactionDate : Date
  narration : PyVal
  debitAmount : ℚ
  creditAmount : ℚ
  lineBalance : ℚ
  transactionAmount : ℚ
  monthYear : ℤ × ℤ
  transactionType : String
deriving DecidableEq

/-- Row-wise content of TransactionAnalyzer.prepare_data (bank.py lines
31 to 43): every column assignment there is element-wise, so the whole
method is the map of this function over the rows. -/
def prepareRow (r : RawRow) : BRow :=
  let debit := coerceCell r.debitCell
  let credit := coerceCell r.creditCell
  let balance := coerceCell r.balanceCell
  { transactionDate := r.transactionDate
    narration := r.narration
    debitAmount := debit
    creditAmount := credit
    lineBalance := balance
    transactionAmount := credit - debit
    monthYear := (r.transactionDate.year, r.transactionDate.month)
    transactionType := extract_transaction_type r.narration }

/-- Models TransactionAnalyzer.prepare_data on the whole ledger. -/
def prepare_data (df : List RawRow) : List BRow :=
  df.map prepareRow

/-- Models TransactionAnalyzer.__init__ (bank.py lines 12 to 14): the
engine takes a private copy of the caller's dataframe (self.df equals
df.copy()) and runs prepare_data on that copy only.  The first component
is the analyzer's own frame; the second is the caller's dataframe as it
stands after the call, which the copy leaves untouched. -/
def analyzerInit (callerDf : List RawRow) : List BRow × List RawRow :=
  (prepare_data callerDf, callerDf)

/-- Models sklearn StandardScaler.fit_transform as invoked in
detect_anomalies: on an empty feature matrix it raises a ValueError
complaining about zero samples; otherwise it standardizes the columns.
The numeric standardization itself (an affine map involving a square
root of the variance) is abstracted as the function argument. -/
def scaler_fit_transform (standardize : List (ℚ × ℚ) → List (ℚ × ℚ))
    (x : List (ℚ × ℚ)) : Except String (List (ℚ × ℚ)) :=
  if x.length = 0 then
    .error "ValueError: found array with 0 samples while a minimum of 1 is required by StandardScaler"
  else
    .ok (standardize x)

/-- Models TransactionAnalyzer.detect_anomalies (bank.py lines 61 to 71):
select the Transaction Amount and Line Balance features, standardize
them with StandardScaler, fit IsolationForest and keep the rows labelled
minus one.  The fitted forest's labelling (seeded randomized model) is
abstracted as the fitPredict argument; the control flow, feature
selection and filtering are the source's.  There is no guard before the
scaler or the forest. -/
def detect_anomalies (standardize : List (ℚ × ℚ) → List (ℚ × ℚ))
    (fitPredict : List (ℚ × ℚ) → List ℤ) (df : List BRow) :
    Except String (List (BRow × ℤ)) :=
  match scaler_fit_transform standardize
      (df.map fun r => (r.transactionAmount, r.lineBalance)) with
  | .error e => .error e
  | .ok xScaled =>
    let labels := fitPredict xScaled
    .ok ((df.zip labels).filter fun p => decide (p.2 = -1))

/-- Models the boolean selection inside find_structured_transactions
(bank.py lines 80 to 82): the rows whose debit amount lies within
amount times tolerance of the anchor amount, bounds included. -/
def similar_transactions (df : List BRow) (tol : ℚ) (amount : ℚ) : List BRow :=
  df.filter fun r => decide (|r.debitAmount - amount| ≤ amount * tol)

/-- Deduplication helper: keeps the first occurrence of each value,
skipping values already seen. -/
def uniqueAux {α : Type} [DecidableEq α] (seen : List α) : List α → List α
  | [] => []
  | a :: rest =>
    if a ∈ seen then uniqueAux seen rest
    else a :: uniqueAux (a :: seen) rest

/-- Models Series.unique (bank.py line 76): the distinct values of a
column in order of first appearance. -/
def uniqueVals {α : Type} [DecidableEq α] (l : List α) : List α :=
  uniqueAux [] l

/-- Structured-group finding emitted by find_structured_transactions.
The source renders the date range as a formatted string from the member
minimum and maximum dates; the two dates carry the same information. -/
structure SGroup where
  amount : ℚ
  count : ℕ
  dateRangeStart : Date
  dateRangeEnd : Date
  totalValue : ℚ
deriving DecidableEq

/-- The group record appended for one anchor amount (bank.py lines 84 to
90): member count, member date range and summed member debit value. -/
def emitGroup (df : List BRow) (tol : ℚ) (amount : ℚ) : SGroup :=
  let members := similar_transactions df tol amount
  { amount := amount
    count := members.length
    dateRangeStart := colMinDate (members.map fun r => r.transactionDate)
    dateRangeEnd := colMaxDate (members.map fun r => r.transactionDate)
    totalValue := (members.map fun r => r.debitAmount).sum }

/-- The loop body of find_structured_transactions (bank.py lines 78 to
90): iterate over the distinct amounts, skip non-positive anchors, and
append a group whenever at least three rows fall inside the band. -/
def structuredLoop (df : List BRow) (tol : ℚ) : List ℚ → List SGroup
  | [] => []
  | a :: rest =>
    if 0 < a then
      if 3 ≤ (similar_transactions df tol a).length then
        emitGroup df tol a :: structuredLoop df tol rest
      else structuredLoop df tol rest
    else structuredLoop df tol rest

/-- Models TransactionAnalyzer.find_structured_transactions (bank.py
lines 73 to 92).  The source's default tolerance is 0.01. -/
def find_structured_transactions (df : List BRow) (tol : ℚ) : List SGroup :=
  structuredLoop df tol (uniqueVals (df.map fun r => r.debitAmount))

/-! dashboard_pdf.py: preprocessing, pattern analysis and the derived
investigation views. -/

/-- Dashboard ledger row after load_and_preprocess_data, with the two
columns that analyze_transaction_patterns later writes into the frame
modelled as optional fields (absent until assigned).  The Transaction
Month period is carried as the pair of year and month. -/
structure PRow where
  transactionDate : Date
  narration : PyVal
  debitAmount : ℚ
  creditAmount : ℚ
  lineBalance : ℚ
  beneficiary : Option String
  transactionMonth : Option (ℤ × ℤ)
deriving DecidableEq

/-- Raw dashboard row before preprocessing. -/
structure DRawRow where
  transactionDate : Date
  narration : PyVal
  debitCell : Cell
  creditCell : Cell
  balanceCell : Cell
deriving DecidableEq

/-- Models load_and_preprocess_data (dashboard_pdf.py lines 31 to 54)
restricted to the columns the analyzed views read: the three amount
columns are coerced exactly like in bank.py.  The branch and IFSC split
and the extracted time components feed only presentation code. -/
def load_and_preprocess_data (df : List DRawRow) : List PRow :=
  df.map fun r =>
    { transactionDate := r.transactionDate
      narration := r.narration
      debitAmount := coerceCell r.debitCell
      creditAmount := coerceCell r.creditCell
      lineBalance := coerceCell r.balanceCell
      beneficiary := none
      transactionMonth := none }

/-! The regex findall of dashboard_pdf.py line 11.  The pattern is a run
of 10 to 12 digits guarded by word boundaries on both sides.  The scan
below follows the regex engine: at each position, if a word boundary
precedes, try the quantifier greedily (12, then 11, then 10 digits),
each attempt requiring a trailing word boundary; otherwise move on. -/

/-- Trailing word-boundary test for a match attempt: end of input or a
non-word character next. -/
def boundaryAfter : List Char → Bool
  | [] => true
  | c :: _ => !isWordChar c

/-- Does a qualifying digit run of exactly the given length start at the
head of the list, with the trailing word boundary satisfied? -/
def runHereB (l : List Char) (n : ℕ) : Bool :=
  decide (10 ≤ n) && decide (n ≤ 12) && decide (n ≤ l.length) &&
    (l.take n).all Char.isDigit && boundaryAfter (l.drop n)

/-- One quantifier attempt of the regex at the current position. -/
def tryRunLen (l : List Char) (n : ℕ) : Option (List Char) :=
  if runHereB l n then some (l.take n) else none

/-- Greedy quantifier: try 12, then 11, then 10 digits here. -/
def tryMatchHere (l : List Char) : Option (List Char) :=
  match tryRunLen l 12 with
  | some m => some m
  | none =>
    match tryRunLen l 11 with
    | some m => some m
    | none => tryRunLen l 10

/-- Left-to-right scan of the regex engine.  The boolean argument records
whether the previous character was a word character, which decides the
leading word boundary; it is false at the start of the string. -/
def scanFirst : Bool → List Char → Option (List Char)
  | _, [] => none
  | prevWord, c :: cs =>
    match if prevWord then none else tryMatchHere (c :: cs) with
    | some m => some m
    | none => scanFirst (isWordChar c) cs

/-- First match of the regex (word boundary, 10 to 12 digits, word
boundary) on a string: the head of re.findall on dashboard_pdf.py
line 11, none when findall returns the empty list. -/
def findall_digits10to12 (s : String) : Option String :=
  (scanFirst false s.data).map fun m => (⟨m⟩ : String)

/-- Models extract_account_from_narration (dashboard_pdf.py lines 8 to
12).  The regex searches str(narration); on a match the matched digit
run is returned.  With no match the source slices the original narration
value, not its str() form, so a non-string narration reaches a
subscript operation it does not support and the call raises a TypeError,
embedded here as the error branch. -/
def extract_account_from_narration (narration : PyVal) : Except String String :=
  match findall_digits10to12 (pyStr narration) with
  | some acct => .ok acct
  | none =>
    match narration with
    | .str s => .ok (⟨s.data.take 20⟩ : String)
    | _ => .error "TypeError: the narration value is not subscriptable"

/-- Monadic map over Except, models Series.apply of a fallible function:
the first raising row aborts the whole apply before any column is
assigned. -/
def mapExcept {α β ε : Type} (f : α → Except ε β) : List α → Except ε (List β)
  | [] => .ok []
  | a :: rest =>
    match f a with
    | .error e => .error e
    | .ok b =>
      match mapExcept f rest with
      | .error e => .error e
      | .ok bs => .ok (b :: bs)

/-- One row of the frequent-partners aggregate of
analyze_transaction_patterns. -/
structure PartnerRow where
  beneficiary : String
  transactionCount : ℕ
  totalDebits : ℚ
  totalCredits : ℚ
deriving DecidableEq

/-- Column assignment of the Beneficiary column (dashboard_pdf.py line
17), performed on the caller's frame in place. -/
def addBeneficiaries (df : List PRow) (bens : List String) : List PRow :=
  (df.zip bens).map fun p => { p.1 with beneficiary := some p.2 }

/-- Column assignment of the Transaction Month column (dashboard_pdf.py
line 26), also on the caller's frame. -/
def addTransactionMonth (df : List PRow) : List PRow :=
  df.map fun r =>
    { r with transactionMonth := some (r.transactionDate.year, r.transactionDate.month) }

/-- Aggregate for one beneficiary key: transaction count and the summed
debit and credit amounts of its group. -/
def partnersFor (dfB : List PRow) (k : String) : PartnerRow :=
  let grp := dfB.filter fun r => decide (r.beneficiary = some k)
  { beneficiary := k
    transactionCount := grp.length
    totalDebits := (grp.map fun r => r.debitAmount).sum
    totalCredits := (grp.map fun r => r.creditAmount).sum }

/-- String order used for the groupby key ordering. -/
def strLeB (a b : String) : Bool :=
  decide (a ≤ b)

/-- Models the groupby aggregation and descending count sort of
dashboard_pdf.py lines 18 to 23: group keys ascending as pandas groupby
produces them, then sort by transaction count descending.  The relative
order of equal counts is unspecified in the source (an unstable sort);
here it is the stable one. -/
def frequent_partners (dfB : List PRow) : List PartnerRow :=
  let keys := sortByB strLeB (uniqueVals (dfB.filterMap fun r => r.beneficiary))
  sortByB (fun a b => decide (b.transactionCount ≤ a.transactionCount))
    (keys.map (partnersFor dfB))

/-- Models analyze_transaction_patterns (dashboard_pdf.py lines 14 to
29).  The function receives the caller's dataframe, assigns the
Beneficiary column on it, aggregates frequent partners, assigns the
Transaction Month column on it, and returns the aggregate together with
the always-empty round-trips list.  The third component is the caller's
dataframe as the function leaves it. -/
def analyze_transaction_patterns (df : List PRow) :
    Except String (List PartnerRow × List PRow × List PRow) :=
  match mapExcept (fun r => extract_account_from_narration r.narration) df with
  | .error e => .error e
  | .ok bens =>
    let dfB := addBeneficiaries df bens
    let partners := frequent_partners dfB
    let dfAfter := addTransactionMonth dfB
    .ok (partners, [], dfAfter)

/-- View of analyze_transaction_patterns that extracts the caller's
dataframe as the function leaves it (none when the call raises): the
component of the embedding that expresses the frame effect on the
caller's data. -/
def patternsDfAfter (df : List PRow) : Option (List PRow) :=
  match analyze_transaction_patterns df with
  | .ok x => some x.2.2
  | .error _ => none

/-- Models Series.quantile with the default linear interpolation: sort
the values, take the fractional position q times (n minus 1), and
interpolate between the two neighbouring order statistics.  An empty
series yields NaN, modelled as none (every comparison against it is
false downstream, as in pandas). -/
def pandasQuantileLinear (q : ℚ) (l : List ℚ) : Option ℚ :=
  match l with
  | [] => none
  | _ :: _ =>
    let s := sortByB (fun a b => decide (a ≤ b)) l
    let pos : ℚ := q * ((l.length : ℚ) - 1)
    let f : ℤ := Rat.floor pos
    let i : ℕ := f.toNat
    let x0 := s.getD i 0
    let x1 := s.getD (i + 1) x0
    some (x0 + (pos - (f : ℚ)) * (x1 - x0))

/-- Models the large-transactions selection (dashboard_pdf.py lines 154
to 157): keep the rows whose debit amount strictly exceeds the debit
column's 95th percentile or whose credit amount strictly exceeds the
credit column's 95th percentile, both percentiles taken over the current
filtered view. -/
def large_transactions (view : List PRow) : List PRow :=
  let qd := pandasQuantileLinear (mkRat 95 100) (view.map fun r => r.debitAmount)
  let qc := pandasQuantileLinear (mkRat 95 100) (view.map fun r => r.creditAmount)
  view.filter fun r =>
    (match qd with
     | none => false
     | some q => decide (q < r.debitAmount)) ||
    (match qc with
     | none => false
     | some q => decide (q < r.creditAmount))

/-- Models the round-trip candidate view (dashboard_pdf.py lines 183 to
186): rows whose debit amount is shared with at least one other row of
the view, or whose credit amount is, sorted chronologically.  The
duplicated test with keep set to False marks exactly the rows whose
column value occurs at least twice. -/
def similar_amounts (view : List PRow) : List PRow :=
  sortByB (fun a b => Date.leB a.transactionDate b.transactionDate)
    (view.filter fun r =>
      decide (2 ≤ view.countP fun x => decide (x.debitAmount = r.debitAmount)) ||
      decide (2 ≤ view.countP fun x => decide (x.creditAmount = r.creditAmount)))

/-! Definitions taken from the specification's wording, kept separate
from the source embedding so the two can be compared. -/

/-- The categorizer's keyword priority list as the specification states
it. -/
def keywordPriority : List String :=
  ["NEFT", "IMPS", "UPI", "ATM", "TRANSFER"]

/-- Categorizer written from the specification's words: case-insensitive
substring search evaluated in the fixed priority order, first match
winning, OTHER otherwise. -/
def categorize_by_priority (narration : PyVal) : String :=
  match keywordPriority.find? (fun k => containsSub (upperStr (pyStr narration)) k) with
  | some k => k
  | none => "OTHER"

/-- Maximal digit runs of a character list, in order of appearance; the
first argument accumulates the reversed current run. -/
def digitRunsAux (cur : List Char) : List Char → List (List Char)
  | [] => if cur.isEmpty then [] else [cur.reverse]
  | c :: cs =>
    if c.isDigit then digitRunsAux (c :: cur) cs
    else if cur.isEmpty then digitRunsAux [] cs
    else cur.reverse :: digitRunsAux [] cs

/-- Written from the claim's words: the first contiguous (maximal) run
of 10 to 12 digits occurring in the narration, left to right, if any. -/
def spec_first_digit_run (s : String) : Option String :=
  ((digitRunsAux [] s.data).find? fun run =>
      decide (10 ≤ run.length) && decide (run.length ≤ 12)).map
    fun m => (⟨m⟩ : String)

/-- Specification predicate for the regex semantics: a digit run of
length L starts at position i of the list, has length 10 to 12, and is
guarded by word boundaries on both sides, where the boolean argument
tells whether a word character immediately precedes the scanned region
(false at the start of the string). -/
def okRunB (w : Bool) (l : List Char) (i L : ℕ) : Bool :=
  runHereB (l.drop i) L &&
    (if i = 0 then !w else !isWordChar (l.getD (i - 1) ' '))

/-- A word-boundary-guarded digit run of length 10 to 12 at position i
of the string's character list. -/
def boundedRunAt (l : List Char) (i L : ℕ) : Bool :=
  okRunB false l i L

/-! Concrete rows used to evaluate the definitions on closed inputs. -/

/-- A raw ledger row whose debit and credit cells are both non-zero. -/
def rawRowBoth : RawRow :=
  { transactionDate := ⟨2023, 4, 3⟩
    narration := .str "NEFT AND UPI"
    debitCell := .str "2.5"
    creditCell := .num 10
    balanceCell := .str "x" }

/-- Ledger carrying the structuring example amounts 100, 100.5, 101 and
500 of the specification, debit column only. -/
def structuringRow (d : Date) (amt : ℚ) : BRow :=
  { transactionDate := d
    narration := .str "CASH WITHDRAWAL"
    debitAmount := amt
    creditAmount := 0
    lineBalance := 0
    transactionAmount := -amt
    monthYear := (d.year, d.month)
    transactionType := "OTHER" }

/-- The specification's structuring example ledger. -/
def structuringLedger : List BRow :=
  [structuringRow ⟨2023, 1, 5⟩ 100,
   structuringRow ⟨2023, 1, 9⟩ (mkRat 201 2),
   structuringRow ⟨2023, 2, 1⟩ 101,
   structuringRow ⟨2023, 2, 7⟩ 500]

/-- A dashboard row builder with explicit amounts. -/
def pRowOf (d : Date) (narr : PyVal) (debit credit : ℚ) : PRow :=
  { transactionDate := d
    narration := narr
    debitAmount := debit
    creditAmount := credit
    lineBalance := 0
    beneficiary := none
    transactionMonth := none }

/-- Two-row view whose debit 95th percentile equals 10 exactly (both
order statistics are 10, so the interpolated percentile is 10). -/
def quantileViewEq : List PRow :=
  [pRowOf ⟨2023, 3, 1⟩ (.str "A") 10 0,
   pRowOf ⟨2023, 3, 2⟩ (.str "B") 10 0]

/-- Two-row view whose debit 95th percentile is 95, with one debit
strictly above it. -/
def quantileViewBig : List PRow :=
  [pRowOf ⟨2023, 4, 1⟩ (.str "A") 0 0,
   pRowOf ⟨2023, 4, 2⟩ (.str "B") 100 0]

/-- Single-row caller dataframe for the pattern-analysis frame effect. -/
def payRow : PRow :=
  pRowOf ⟨2023, 5, 2⟩ (.str "pay") 0 5000

/-- The same row as analyze_transaction_patterns leaves it in the
caller's frame. -/
def payRowAfter : PRow :=
  { payRow with
    beneficiary := some "pay"
    transactionMonth := some (2023, 5) }

/-- Two credit-only rows: both debit amounts are zero after coercion. -/
def creditOnlyView : List PRow :=
  [pRowOf ⟨2023, 6, 1⟩ (.str "Salary credit") 0 40000,
   pRowOf ⟨2023, 6, 15⟩ (.str "Dividend") 0 1250]

/-! Helper lemmas about the list machinery of the embedding. -/

theorem mem_insertSorted {α : Type} (le : α → α → Bool) (x a : α) (l : List α) :
    a ∈ insertSorted le x l ↔ a = x ∨ a ∈ l := by
  induction l with
  | nil => simp [insertSorted]
  | cons b bs ih =>
    by_cases h : le x b = true
    · simp [insertSorted, h]
    · simp only [insertSorted, if_neg h, List.mem_cons, ih]
      tauto

theorem mem_sortByB {α : Type} (le : α → α → Bool) (a : α) (l : List α) :
    a ∈ sortByB le l ↔ a ∈ l := by
  induction l with
  | nil => simp [sortByB]
  | cons b bs ih =>
    simp only [sortByB, List.foldr_cons] at ih ⊢
    rw [mem_insertSorted, ih, List.mem_cons]

theorem mem_uniqueAux {α : Type} [DecidableEq α] (a : α) :
    ∀ (l seen : List α), a ∈ uniqueAux seen l ↔ a ∈ l ∧ a ∉ seen := by
  intro l
  induction l with
  | nil => intro seen; simp [uniqueAux]
  | cons x rest ih =>
    intro seen
    by_cases hx : x ∈ seen
    · rw [uniqueAux, if_pos hx, ih, List.mem_cons]
      constructor
      · rintro ⟨h1, h2⟩
        exact ⟨Or.inr h1, h2⟩
      · rintro ⟨h1 | h1, h2⟩
        · exact absurd (h1 ▸ hx) h2
        · exact ⟨h1, h2⟩
    · rw [uniqueAux, if_neg hx]
      simp only [List.mem_cons, ih]
      constructor
      · rintro (rfl | ⟨h1, h2⟩)
        · exact ⟨Or.inl rfl, hx⟩
        · exact ⟨Or.inr h1, fun hs => h2 (Or.inr hs)⟩
      · rintro ⟨h1, h2⟩
        by_cases hax : a = x
        · exact Or.inl hax
        · rcases h1 with rfl | h1
          · exact absurd rfl hax
          · refine Or.inr ⟨h1, ?_⟩
            rintro (h | hs)
            exacts [hax h, h2 hs]

theorem mem_uniqueVals {α : Type} [DecidableEq α] (a : α) (l : List α) :
    a ∈ uniqueVals l ↔ a ∈ l := by
  simp [uniqueVals, mem_uniqueAux]

theorem countP_uniqueAux {α : Type} [DecidableEq α] (a : α) :
    ∀ (l seen : List α),
      (uniqueAux seen l).countP (fun b => decide (b = a)) =
        if a ∈ seen then 0 else if a ∈ l then 1 else 0 := by
  intro l
  induction l with
  | nil => intro seen; simp [uniqueAux]
  | cons x rest ih =>
    intro seen
    by_cases hx : x ∈ seen
    · rw [uniqueAux, if_pos hx, ih]
      by_cases ha : a ∈ seen
      · simp [ha]
      · have hax : ¬ a = x := fun h => ha (h ▸ hx)
        simp [ha, List.mem_cons, hax]
    · rw [uniqueAux, if_neg hx, List.countP_cons, ih]
      by_cases hax : x = a
      · subst hax
        simp [hx, List.mem_cons]
      · have hax' : ¬ a = x := fun h => hax h.symm
        by_cases ha : a ∈ seen
        · simp [ha, List.mem_cons, hax', hax]
        · simp [ha, List.mem_cons, hax', hax]

theorem countP_uniqueVals {α : Type} [DecidableEq α] (a : α) (l : List α) (h : a ∈ l) :
    (uniqueVals l).countP (fun b => decide (b = a)) = 1 := by
  simp [uniqueVals, countP_uniqueAux, h]

theorem structuredLoop_mem (df : List BRow) (tol : ℚ) (g : SGroup) :
    ∀ u : List ℚ, g ∈ structuredLoop df tol u ↔
      ∃ a ∈ u, 0 < a ∧ 3 ≤ (similar_transactions df tol a).length ∧
        g = emitGroup df tol a := by
  intro u
  induction u with
  | nil => simp [structuredLoop]
  | cons b rest ih =>
    by_cases hb : 0 < b
    · by_cases h3 : 3 ≤ (similar_transactions df tol b).length
      · rw [structuredLoop, if_pos hb, if_pos h3, List.mem_cons, ih]
        constructor
        · rintro (rfl | ⟨a, ha, h1, h2, h4⟩)
          · exact ⟨b, List.mem_cons_self b rest, hb, h3, rfl⟩
          · exact ⟨a, List.mem_cons_of_mem _ ha, h1, h2, h4⟩
        · rintro ⟨a, ha, h1, h2, h4⟩
          rcases List.mem_cons.mp ha with rfl | ha'
          · exact Or.inl h4
          · exact Or.inr ⟨a, ha', h1, h2, h4⟩
      · rw [structuredLoop, if_pos hb, if_neg h3, ih]
        constructor
        · rintro ⟨a, ha, h1, h2, h4⟩
          exact ⟨a, List.mem_cons_of_mem _ ha, h1, h2, h4⟩
        · rintro ⟨a, ha, h1, h2, h4⟩
          rcases List.mem_cons.mp ha with rfl | ha'
          · exact absurd h2 h3
          · exact ⟨a, ha', h1, h2, h4⟩
    · rw [structuredLoop, if_neg hb, ih]
      constructor
      · rintro ⟨a, ha, h1, h2, h4⟩
        exact ⟨a, List.mem_cons_of_mem _ ha, h1, h2, h4⟩
      · rintro ⟨a, ha, h1, h2, h4⟩
        rcases List.mem_cons.mp ha with rfl | ha'
        · exact absurd h1 hb
        · exact ⟨a, ha', h1, h2, h4⟩

theorem structuredLoop_countP (df : List BRow) (tol : ℚ) (a : ℚ) :
    ∀ u : List ℚ,
      (structuredLoop df tol u).countP (fun g => decide (g.amount = a)) =
        u.countP (fun b =>
          (decide (0 < b) && decide (3 ≤ (similar_transactions df tol b).length)) &&
            decide (b = a)) := by
  intro u
  induction u with
  | nil => simp [structuredLoop]
  | cons b rest ih =>
    by_cases hb : 0 < b
    · by_cases h3 : 3 ≤ (similar_transactions df tol b).length
      · rw [structuredLoop, if_pos hb, if_pos h3, List.countP_cons, List.countP_cons, ih]
        have hamt : (emitGroup df tol b).amount = b := rfl
        simp [hamt, hb, h3]
      · rw [structuredLoop, if_pos hb, if_neg h3, ih, List.countP_cons]
        simp [h3]
    · rw [structuredLoop, if_neg hb, ih, List.countP_cons]
      simp [hb]

/-! The claims. -/

/-- C1: every record produced by normalization satisfies
Transaction Amount equals Credit Amount minus Debit Amount, with no
precondition that only one of the two is non-zero. -/
theorem net_amount_invariant (df : List RawRow) (row : BRow)
    (h : row ∈ prepare_data df) :
    row.transactionAmount = row.creditAmount - row.debitAmount := by
  rcases List.mem_map.mp h with ⟨r, _, rfl⟩
  rfl

/-- Witness for C1 at a concrete row whose debit and credit are both
non-zero after coercion. -/
theorem net_amount_invariant_witness :
    (prepareRow rawRowBoth).debitAmount = mkRat 5 2 ∧
    (prepareRow rawRowBoth).creditAmount = 10 ∧
    (prepareRow rawRowBoth).transactionAmount =
      (prepareRow rawRowBoth).creditAmount - (prepareRow rawRowBoth).debitAmount :=
  ⟨by with_unfolding_all decide, by with_unfolding_all decide,
   net_amount_invariant [rawRowBoth] (prepareRow rawRowBoth) (by simp [prepare_data])⟩

/-- C2: the structuring detector emits exactly one group per distinct
positive debit amount with at least three rows inside the inclusive
tolerance band; every emitted group carries that member count, the
member date range and the summed member debit value, and its anchor is
a positive observed amount (so an anchor of zero is never emitted). -/
theorem structuring_groups_spec (df : List BRow) (tol : ℚ) :
    (∀ g ∈ find_structured_transactions df tol,
        0 < g.amount ∧
        g.amount ∈ df.map (fun r => r.debitAmount) ∧
        3 ≤ (similar_transactions df tol g.amount).length ∧
        g.count = (similar_transactions df tol g.amount).length ∧
        g.dateRangeStart =
          colMinDate ((similar_transactions df tol g.amount).map fun r => r.transactionDate) ∧
        g.dateRangeEnd =
          colMaxDate ((similar_transactions df tol g.amount).map fun r => r.transactionDate) ∧
        g.totalValue =
          ((similar_transactions df tol g.amount).map fun r => r.debitAmount).sum) ∧
    (∀ a : ℚ, a ∈ df.map (fun r => r.debitAmount) → 0 < a →
        3 ≤ (similar_transactions df tol a).length →
        (find_structured_transactions df tol).countP (fun g => decide (g.amount = a)) = 1) := by
  constructor
  · intro g hg
    rw [find_structured_transactions, structuredLoop_mem] at hg
    rcases hg with ⟨a, ha, h1, h2, rfl⟩
    have hmem : a ∈ df.map (fun r => r.debitAmount) := (mem_uniqueVals a _).mp ha
    exact ⟨h1, hmem, h2, rfl, rfl, rfl, rfl⟩
  · intro a hmem h0 h3
    rw [find_structured_transactions, structuredLoop_countP]
    have hfun :
        (fun b =>
          (decide (0 < b) && decide (3 ≤ (similar_transactions df tol b).length)) &&
            decide (b = a)) = fun b => decide (b = a) := by
      funext b
      by_cases hba : b = a
      · subst hba
        simp [h0, h3]
      · simp [hba]
    rw [hfun]
    exact countP_uniqueVals a _ hmem

/-- Witness for C2 on the specification's example ledger with debit
amounts 100, 100.5, 101 and 500 at tolerance 0.01: the group anchored
at 100 exists and is unique, and no group is anchored at 500. -/
theorem structuring_groups_spec_witness :
    (find_structured_transactions structuringLedger (mkRat 1 100)).countP
        (fun g => decide (g.amount = 100)) = 1 ∧
    3 ≤ (similar_transactions structuringLedger (mkRat 1 100) 100).length ∧
    (find_structured_transactions structuringLedger (mkRat 1 100)).countP
        (fun g => decide (g.amount = 500)) = 0 :=
  ⟨(structuring_groups_spec structuringLedger (mkRat 1 100)).2 100 (by decide)
      (by decide) (by with_unfolding_all decide),
   by with_unfolding_all decide,
   by with_unfolding_all decide⟩

/-- C3: with no guard in detect_anomalies, the empty ledger reaches
StandardScaler with zero samples and the call raises instead of
returning the documented fallback of zero anomalies; this holds for
every standardization map and every fitted model labelling. -/
theorem detect_anomalies_empty_raises
    (standardize : List (ℚ × ℚ) → List (ℚ × ℚ))
    (fitPredict : List (ℚ × ℚ) → List ℤ) :
    detect_anomalies standardize fitPredict [] =
      .error "ValueError: found array with 0 samples while a minimum of 1 is required by StandardScaler" :=
  rfl

/-- C4: the categorizer is total with values in the fixed six-member
set, agrees with the specification's priority-ordered case-insensitive
substring search, sends a null narration to OTHER, and resolves any
narration containing both NEFT and UPI to NEFT. -/
theorem categorizer_priority (v : PyVal) :
    extract_transaction_type v = categorize_by_priority v ∧
    extract_transaction_type v ∈ ["NEFT", "IMPS", "UPI", "ATM", "TRANSFER", "OTHER"] ∧
    extract_transaction_type PyVal.pyNone = "OTHER" ∧
    (∀ s : String, containsSub (upperStr s) "NEFT" = true →
      containsSub (upperStr s) "UPI" = true →
      extract_transaction_type (PyVal.str s) = "NEFT") := by
  refine ⟨?_, ?_, by decide, ?_⟩
  · simp only [extract_transaction_type, categorize_by_priority, keywordPriority]
    cases h1 : containsSub (upperStr (pyStr v)) "NEFT" <;>
      cases h2 : containsSub (upperStr (pyStr v)) "IMPS" <;>
        cases h3 : containsSub (upperStr (pyStr v)) "UPI" <;>
          cases h4 : containsSub (upperStr (pyStr v)) "ATM" <;>
            cases h5 : containsSub (upperStr (pyStr v)) "TRANSFER" <;>
              simp [List.find?, h1, h2, h3, h4, h5]
  · simp only [extract_transaction_type]
    split_ifs <;> simp
  · intro s h1 h2
    simp only [extract_transaction_type, pyStr]
    rw [if_pos h1]

/-- Witness for C4: a narration containing both NEFT and UPI resolves
to NEFT. -/
theorem categorizer_priority_witness :
    extract_transaction_type (PyVal.str "Sent via neft and upi ref 99") = "NEFT" :=
  (categorizer_priority (PyVal.str "Sent via neft and upi ref 99")).2.2.2
    "Sent via neft and upi ref 99" (by decide) (by decide)

/-- C6: numeric coercion of an amount cell is total; a cell that fails
numeric parsing (including a missing one) becomes zero and a cell that
parses keeps its parsed value. -/
theorem coercion_never_errors (c : Cell) :
    (to_numeric_coerce c = none → coerceCell c = 0) ∧
    ∀ q : ℚ, to_numeric_coerce c = some q → coerceCell c = q := by
  constructor
  · intro h
    simp [coerceCell, fillna0, h]
  · intro q h
    simp [coerceCell, fillna0, h]

/-- Witness for C6: an unparseable text cell and a missing cell coerce
to zero, and a parseable decimal keeps its value. -/
theorem coercion_never_errors_witness :
    coerceCell (Cell.str "no amount") = 0 ∧
    coerceCell Cell.null = 0 ∧
    coerceCell (Cell.str "250.75") = mkRat 1003 4 :=
  ⟨(coercion_never_errors _).1 (by decide),
   (coercion_never_errors _).1 rfl,
   (coercion_never_errors _).2 (mkRat 1003 4) (by with_unfolding_all decide)⟩

theorem mapExcept_ok {α β ε : Type} (f : α → Except ε β) :
    ∀ (l : List α) (bs : List β), mapExcept f l = .ok bs →
      List.Forall₂ (fun x b => f x = .ok b) l bs := by
  intro l
  induction l with
  | nil =>
    intro bs h
    simp only [mapExcept, Except.ok.injEq] at h
    subst h
    exact List.Forall₂.nil
  | cons a rest ih =>
    intro bs h
    cases hfa : f a with
    | error e => simp [mapExcept, hfa] at h
    | ok b =>
      cases hrest : mapExcept f rest with
      | error e => simp [mapExcept, hfa, hrest] at h
      | ok bs' =>
        simp only [mapExcept, hfa, hrest, Except.ok.injEq] at h
        subst h
        exact List.Forall₂.cons hfa (ih bs' hrest)

theorem addCols_forall₂ :
    ∀ (df : List PRow) (bens : List String),
      List.Forall₂ (fun r b => extract_account_from_narration r.narration = .ok b) df bens →
      List.Forall₂ (fun r r2 =>
        ∃ b, extract_account_from_narration r.narration = .ok b ∧
          r2 = { r with beneficiary := some b,
                        transactionMonth := some (r.transactionDate.year, r.transactionDate.month) })
        df (addTransactionMonth (addBeneficiaries df bens)) := by
  intro df bens h
  induction h with
  | nil => exact List.Forall₂.nil
  | cons hab htail ih => exact List.Forall₂.cons ⟨_, hab, rfl⟩ ih

/-- C5: a transaction of the current view is flagged large exactly when
its debit amount strictly exceeds the view's debit-column 95th
percentile or its credit amount strictly exceeds the view's
credit-column 95th percentile (both per view, per column); a row whose
debit amount equals the debit percentile exactly, without exceeding the
credit percentile, is not flagged. -/
theorem large_flag_strict_percentile (view : List PRow) (r : PRow) (qd qc : ℚ)
    (hd : pandasQuantileLinear (mkRat 95 100) (view.map fun x => x.debitAmount) = some qd)
    (hc : pandasQuantileLinear (mkRat 95 100) (view.map fun x => x.creditAmount) = some qc)
    (hr : r ∈ view) :
    (r ∈ large_transactions view ↔ (qd < r.debitAmount ∨ qc < r.creditAmount)) ∧
    (r.debitAmount = qd → r.creditAmount ≤ qc → r ∉ large_transactions view) := by
  have hiff : r ∈ large_transactions view ↔ (qd < r.debitAmount ∨ qc < r.creditAmount) := by
    simp only [large_transactions, hd, hc]
    simp [List.mem_filter, hr]
  refine ⟨hiff, ?_⟩
  intro heq hle hmem
  rcases hiff.mp hmem with h | h
  · rw [heq] at h
    exact lt_irrefl qd h
  · exact absurd h (not_lt.mpr hle)

/-- Witness for C5: in a view whose debit 95th percentile is exactly 10,
the row with debit amount 10 is not flagged; in a view whose debit 95th
percentile is 95, the row with debit amount 100 is flagged. -/
theorem large_flag_strict_percentile_witness :
    pRowOf ⟨2023, 3, 1⟩ (.str "A") 10 0 ∉ large_transactions quantileViewEq ∧
    pRowOf ⟨2023, 4, 2⟩ (.str "B") 100 0 ∈ large_transactions quantileViewBig :=
  ⟨(large_flag_strict_percentile quantileViewEq _ 10 0
      (by with_unfolding_all decide) (by with_unfolding_all decide) (by decide)).2
      rfl (by decide),
   ((large_flag_strict_percentile quantileViewBig _ 95 0
      (by with_unfolding_all decide) (by with_unfolding_all decide) (by decide)).1).mpr
      (Or.inl (by decide))⟩

/-- C8 counterexample: analyze_transaction_patterns hands the caller's
single-row frame back with the Beneficiary and Transaction Month
columns written into it, so the caller's dataset is not left
unchanged. -/
theorem analyze_patterns_mutates_caller_cex :
    patternsDfAfter [payRow] = some [payRowAfter] ∧ [payRowAfter] ≠ [payRow] :=
  ⟨by decide, by decide⟩

/-- C8 amended: the analyzer's construction copies the caller's ledger
and leaves it unchanged, but analyze_transaction_patterns mutates the
caller's frame in place: each row keeps its core fields and gains the
Beneficiary and Transaction Month columns. -/
theorem caller_frame_effects :
    (∀ dfB : List RawRow, (analyzerInit dfB).2 = dfB) ∧
    (∀ df dfAfter : List PRow, patternsDfAfter df = some dfAfter →
      List.Forall₂ (fun r r2 =>
        ∃ b, extract_account_from_narration r.narration = .ok b ∧
          r2 = { r with beneficiary := some b,
                        transactionMonth := some (r.transactionDate.year, r.transactionDate.month) })
        df dfAfter) := by
  refine ⟨fun dfB => rfl, ?_⟩
  intro df dfAfter h
  rw [patternsDfAfter] at h
  cases hme : mapExcept (fun r => extract_account_from_narration r.narration) df with
  | error e => simp [analyze_transaction_patterns, hme] at h
  | ok bens =>
    simp only [analyze_transaction_patterns, hme, Option.some.injEq] at h
    subst h
    exact addCols_forall₂ df bens (mapExcept_ok _ df bens hme)

/-- Witness for C8 on a concrete one-row caller frame. -/
theorem caller_frame_effects_witness :
    List.Forall₂ (fun r r2 =>
      ∃ b, extract_account_from_narration r.narration = .ok b ∧
        r2 = { r with beneficiary := some b,
                      transactionMonth := some (r.transactionDate.year, r.transactionDate.month) })
      [payRow] [payRowAfter] :=
  caller_frame_effects.2 [payRow] [payRowAfter] (by decide)

theorem isWordChar_of_digit {c : Char} (h : c.isDigit = true) : isWordChar c = true := by
  simp [isWordChar, Char.isAlphanum, h]

theorem runHereB_not_lt {l : List Char} {L M : ℕ}
    (hL : runHereB l L = true) (hM : runHereB l M = true) : ¬ L < M := by
  intro hlt
  simp only [runHereB, Bool.and_eq_true, decide_eq_true_eq] at hL hM
  obtain ⟨⟨⟨⟨_, _⟩, _⟩, _⟩, hbL⟩ := hL
  obtain ⟨⟨⟨⟨_, _⟩, hlenM⟩, hdigM⟩, _⟩ := hM
  have hLlen : L < l.length := lt_of_lt_of_le hlt hlenM
  have hmin2 : (l.take M).length = M := by
    rw [List.length_take]
    exact min_eq_left hlenM
  have hLtake : L < (l.take M).length := by
    rw [hmin2]
    exact hlt
  have hmem : l[L] ∈ l.take M := by
    have h1 : (l.take M)[L] = l[L] := List.getElem_take l
    rw [← h1]
    exact List.getElem_mem hLtake
  have hdig : Char.isDigit l[L] = true := List.all_eq_true.mp hdigM _ hmem
  rw [List.drop_eq_getElem_cons hLlen] at hbL
  simp only [boundaryAfter, isWordChar_of_digit hdig] at hbL
  cases hbL

theorem runHereB_unique {l : List Char} {L M : ℕ}
    (hL : runHereB l L = true) (hM : runHereB l M = true) : L = M := by
  rcases Nat.lt_trichotomy L M with hlt | heq | hgt
  · exact absurd hlt (runHereB_not_lt hL hM)
  · exact heq
  · exact absurd hgt (runHereB_not_lt hM hL)

theorem tryRunLen_eq_some {l m : List Char} {n : ℕ} :
    tryRunLen l n = some m ↔ runHereB l n = true ∧ m = l.take n := by
  by_cases h : runHereB l n = true
  · simp [tryRunLen, h, eq_comm]
  · simp [tryRunLen, h]

theorem tryMatchHere_some {l m : List Char} (h : tryMatchHere l = some m) :
    ∃ L, runHereB l L = true ∧ m = l.take L := by
  cases h12 : tryRunLen l 12 with
  | some m2 =>
    simp only [tryMatchHere, h12, Option.some.injEq] at h
    subst h
    exact ⟨12, (tryRunLen_eq_some.mp h12).1, (tryRunLen_eq_some.mp h12).2⟩
  | none =>
    cases h11 : tryRunLen l 11 with
    | some m2 =>
      simp only [tryMatchHere, h12, h11, Option.some.injEq] at h
      subst h
      exact ⟨11, (tryRunLen_eq_some.mp h11).1, (tryRunLen_eq_some.mp h11).2⟩
    | none =>
      simp only [tryMatchHere, h12, h11] at h
      exact ⟨10, (tryRunLen_eq_some.mp h).1, (tryRunLen_eq_some.mp h).2⟩

theorem tryMatchHere_none {l : List Char} (h : tryMatchHere l = none) :
    ∀ L, runHereB l L = false := by
  intro L
  cases hb : runHereB l L
  · rfl
  · exfalso
    have h10 : 10 ≤ L := by
      have hb2 := hb
      simp only [runHereB, Bool.and_eq_true, decide_eq_true_eq] at hb2
      exact hb2.1.1.1.1
    have h12 : L ≤ 12 := by
      have hb2 := hb
      simp only [runHereB, Bool.and_eq_true, decide_eq_true_eq] at hb2
      exact hb2.1.1.1.2
    have hfalse : ∀ n, n ≠ L → runHereB l n = false := by
      intro n hn
      cases hbn : runHereB l n
      · rfl
      · exact absurd (runHereB_unique hbn hb) hn
    interval_cases L
    · simp [tryMatchHere, tryRunLen, hfalse 12 (by omega), hfalse 11 (by omega), hb] at h
    · simp [tryMatchHere, tryRunLen, hfalse 12 (by omega), hb] at h
    · simp [tryMatchHere, tryRunLen, hb] at h

theorem okRunB_nil (w : Bool) (i L : ℕ) : okRunB w [] i L = false := by
  have h : runHereB ([] : List Char) L = false := by
    cases hb : runHereB [] L
    · rfl
    · simp only [runHereB, List.length_nil, Bool.and_eq_true, decide_eq_true_eq] at hb
      omega
  simp [okRunB, List.drop_nil, h]

theorem okRunB_zero (w : Bool) (l : List Char) (L : ℕ) :
    okRunB w l 0 L = (runHereB l L && !w) := by
  simp [okRunB]

theorem okRunB_succ (w : Bool) (c : Char) (cs : List Char) (i L : ℕ) :
    okRunB w (c :: cs) (i + 1) L = okRunB (isWordChar c) cs i L := by
  cases i with
  | zero => simp [okRunB, List.drop_succ_cons, List.getD_cons_zero]
  | succ j => simp [okRunB, List.drop_succ_cons, List.getD_cons_succ]

theorem scanFirst_none_sound :
    ∀ (u : List Char) (w : Bool), scanFirst w u = none → ∀ i L, okRunB w u i L = false := by
  intro u
  induction u with
  | nil =>
    intro w _ i L
    exact okRunB_nil w i L
  | cons c cs ih =>
    intro w h i L
    cases w with
    | true =>
      have hrec : scanFirst (isWordChar c) cs = none := by simpa [scanFirst] using h
      cases i with
      | zero =>
        rw [okRunB_zero]
        simp
      | succ j =>
        rw [okRunB_succ]
        exact ih (isWordChar c) hrec j L
    | false =>
      cases hm : tryMatchHere (c :: cs) with
      | some m => simp [scanFirst, hm] at h
      | none =>
        have hrec : scanFirst (isWordChar c) cs = none := by simpa [scanFirst, hm] using h
        cases i with
        | zero =>
          rw [okRunB_zero]
          simp [tryMatchHere_none hm L]
        | succ j =>
          rw [okRunB_succ]
          exact ih (isWordChar c) hrec j L

theorem scanFirst_some_sound :
    ∀ (u : List Char) (w : Bool) (m : List Char), scanFirst w u = some m →
      ∃ i L, okRunB w u i L = true ∧ m = (u.drop i).take L ∧
        ∀ j M, okRunB w u j M = true → i ≤ j := by
  intro u
  induction u with
  | nil =>
    intro w m h
    simp [scanFirst] at h
  | cons c cs ih =>
    intro w m h
    cases w with
    | true =>
      have hrec : scanFirst (isWordChar c) cs = some m := by simpa [scanFirst] using h
      obtain ⟨i, L, hok, hmm, hmin⟩ := ih (isWordChar c) m hrec
      refine ⟨i + 1, L, ?_, ?_, ?_⟩
      · rw [okRunB_succ]
        exact hok
      · simpa [List.drop_succ_cons] using hmm
      · intro j M hj
        cases j with
        | zero =>
          rw [okRunB_zero] at hj
          simp at hj
        | succ j2 =>
          rw [okRunB_succ] at hj
          exact Nat.succ_le_succ (hmin j2 M hj)
    | false =>
      cases hm : tryMatchHere (c :: cs) with
      | some m2 =>
        have hm2 : m2 = m := by simpa [scanFirst, hm] using h
        subst hm2
        obtain ⟨L, hrun, htake⟩ := tryMatchHere_some hm
        refine ⟨0, L, ?_, ?_, ?_⟩
        · rw [okRunB_zero, hrun]
          rfl
        · simpa [List.drop_zero] using htake
        · intro j M _
          exact Nat.zero_le j
      | none =>
        have hrec : scanFirst (isWordChar c) cs = some m := by simpa [scanFirst, hm] using h
        obtain ⟨i, L, hok, hmm, hmin⟩ := ih (isWordChar c) m hrec
        refine ⟨i + 1, L, ?_, ?_, ?_⟩
        · rw [okRunB_succ]
          exact hok
        · simpa [List.drop_succ_cons] using hmm
        · intro j M hj
          cases j with
          | zero =>
            rw [okRunB_zero, tryMatchHere_none hm M] at hj
            simp at hj
          | succ j2 =>
            rw [okRunB_succ] at hj
            exact Nat.succ_le_succ (hmin j2 M hj)

theorem scanFirst_props {u : List Char} {w : Bool} {m : List Char}
    (h : scanFirst w u = some m) :
    m.all Char.isDigit = true ∧ 10 ≤ m.length ∧ m.length ≤ 12 := by
  obtain ⟨i, L, hok, hmm, _⟩ := scanFirst_some_sound u w m h
  simp only [okRunB, Bool.and_eq_true] at hok
  obtain ⟨hrun, _⟩ := hok
  simp only [runHereB, Bool.and_eq_true, decide_eq_true_eq] at hrun
  obtain ⟨⟨⟨⟨h10, h12⟩, hlen⟩, hdig⟩, _⟩ := hrun
  subst hmm
  have hlen2 : ((u.drop i).take L).length = L := by
    rw [List.length_take]
    exact min_eq_left hlen
  refine ⟨hdig, ?_, ?_⟩
  · rw [hlen2]
    exact h10
  · rw [hlen2]
    exact h12

/-- C7 counterexample: the narration AC1234567890 REF contains the
contiguous digit run 1234567890 of length ten (as the claim's own
first-run function confirms), yet the extractor returns the twenty
character fallback because the run is preceded by a letter, so the
claimed output and the computed output differ. -/
theorem extract_account_letter_adjacent_cex :
    spec_first_digit_run "AC1234567890 REF" = some "1234567890" ∧
    extract_account_from_narration (.str "AC1234567890 REF") = .ok "AC1234567890 REF" ∧
    ("AC1234567890 REF" : String) ≠ "1234567890" :=
  ⟨by decide, by decide, by decide⟩

/-- C7 amended: on a string narration the extractor returns the first
run of 10 to 12 digits that is bounded by word boundaries on both sides
(not adjacent to a letter, digit or underscore), and the first 20
characters when no such bounded run exists; the claim's two cited
examples hold as stated. -/
theorem extract_account_characterization :
    (∀ s : String,
      (∃ i L, boundedRunAt s.data i L = true ∧
        extract_account_from_narration (.str s) = .ok (⟨(s.data.drop i).take L⟩ : String) ∧
        ∀ j M, boundedRunAt s.data j M = true → i ≤ j) ∨
      ((∀ j M, boundedRunAt s.data j M = false) ∧
        extract_account_from_narration (.str s) = .ok (⟨s.data.take 20⟩ : String))) ∧
    extract_account_from_narration (.str "TRANSFER TO A/C 1234567890 REF") = .ok "1234567890" ∧
    extract_account_from_narration (.str "Salary credit") = .ok "Salary credit" := by
  refine ⟨?_, by decide, by decide⟩
  intro s
  cases hscan : scanFirst false s.data with
  | some m =>
    left
    obtain ⟨i, L, hok, hmm, hmin⟩ := scanFirst_some_sound _ _ _ hscan
    refine ⟨i, L, hok, ?_, hmin⟩
    simp [extract_account_from_narration, findall_digits10to12, pyStr, hscan, hmm]
  | none =>
    right
    refine ⟨fun j M => scanFirst_none_sound _ _ hscan j M, ?_⟩
    simp [extract_account_from_narration, findall_digits10to12, pyStr, hscan]

/-- C9: on string narrations the extractor always succeeds and returns
either a digit run of length 10 to 12 or a prefix of at most 20
characters of the narration; a non-string narration whose str() form
yields no regex match reaches the slice fallback on the original value
and raises a TypeError. -/
theorem extract_account_totality :
    (∀ s : String, ∃ out : String,
      extract_account_from_narration (.str s) = .ok out ∧
      ((out.data.all Char.isDigit = true ∧ 10 ≤ out.data.length ∧ out.data.length ≤ 12) ∨
        out.data = s.data.take 20)) ∧
    (∀ v : PyVal, (∀ s, v ≠ .str s) → findall_digits10to12 (pyStr v) = none →
      ∃ e, extract_account_from_narration v = .error e) := by
  constructor
  · intro s
    cases hscan : scanFirst false s.data with
    | some m =>
      refine ⟨(⟨m⟩ : String), ?_, Or.inl ?_⟩
      · simp [extract_account_from_narration, findall_digits10to12, pyStr, hscan]
      · exact scanFirst_props hscan
    | none =>
      refine ⟨(⟨s.data.take 20⟩ : String), ?_, Or.inr rfl⟩
      simp [extract_account_from_narration, findall_digits10to12, pyStr, hscan]
  · intro v hv hnone
    cases v with
    | str s => exact absurd rfl (hv s)
    | pyNone =>
      exact ⟨"TypeError: the narration value is not subscriptable",
        by simp [extract_account_from_narration, hnone]⟩
    | pyNaN =>
      exact ⟨"TypeError: the narration value is not subscriptable",
        by simp [extract_account_from_narration, hnone]⟩
    | intVal n =>
      exact ⟨"TypeError: the narration value is not subscriptable",
        by simp [extract_account_from_narration, hnone]⟩

/-- Witness for C9: the null narration has no digit run in its str()
form None, and the extractor raises. -/
theorem extract_account_totality_witness :
    ∃ e, extract_account_from_narration PyVal.pyNone = .error e :=
  extract_account_totality.2 PyVal.pyNone (fun _ h => PyVal.noConfusion h) (by decide)

/-- C10: because missing debit amounts coerce to zero, any view with at
least two zero-debit rows puts every zero-debit row into the
duplicate-amount round-trip candidate view. -/
theorem zero_debit_duplicates (view : List PRow) (r : PRow)
    (hr : r ∈ view) (h0 : r.debitAmount = 0)
    (hc : 2 ≤ view.countP fun x => decide (x.debitAmount = 0)) :
    r ∈ similar_amounts view := by
  rw [similar_amounts, mem_sortByB, List.mem_filter]
  refine ⟨hr, ?_⟩
  simp only [h0]
  simp [hc]

/-- Witness for C10: two credit-only rows share the coerced debit amount
zero, and the first is in the candidate view. -/
theorem zero_debit_duplicates_witness :
    pRowOf ⟨2023, 6, 1⟩ (.str "Salary credit") 0 40000 ∈ similar_amounts creditOnlyView :=
  zero_debit_duplicates creditOnlyView _ (by decide) rfl (by decide)

end BankSpec
